import Mathlib

/-!
# Verification of the Squirel OS interactive console core

Shallow embedding of the core components of the Squirel repository:
the VGA text-mode console driver (`src/kernel/drivers/vga/vga_text.c`),
the PS/2 keyboard decoder (`src/kernel/drivers/keyboard/keyboard.c`),
the line editor and command dispatcher (`src/kernel/shell/shell.c`), and
the command-line tokenizer (`src/kernel/shell/parser/parser.c`).

Machine integers are modelled as `Nat` with explicit wrap-around where the
C code can overflow; C strings are modelled as lists of (non-zero) byte
values; hardware port output (`outb`) is modelled as an event trace carried
in the console state.
-/

namespace Squirel

/-! ## Constants from `include/squirel/config.h` and `vga_text.h` -/

def VGA_WIDTH : Nat := 80
def VGA_HEIGHT : Nat := 25
def SHELL_MAX_CMD_LEN : Nat := 256
def SHELL_MAX_ARGS : Nat := 16

def VGA_BLACK : Nat := 0
def VGA_LIGHT_GRAY : Nat := 7

/-! ## VGA text driver state (`src/kernel/drivers/vga/vga_text.c`)

The VGA buffer at 0xB8000 is a flat array of `VGA_WIDTH * VGA_HEIGHT`
16-bit cells, modelled as a function from cell offset to 16-bit value.
`ports` records every `outb(port, value)` the driver issues, in order. -/

structure VgaState where
  buffer : Nat → Nat
  cursor_x : Nat
  cursor_y : Nat
  current_attr : Nat
  ports : List (Nat × Nat)

/-- `vga_make_attr`: `(bg << 4) | (fg & 0x0F)` truncated to a byte. -/
def vga_make_attr (fg bg : Nat) : Nat :=
  ((bg <<< 4) ||| (fg &&& 0x0F)) % 256

/-- `vga_make_entry`: `(uint16_t)c | ((uint16_t)attr << 8)`. -/
def vga_make_entry (c attr : Nat) : Nat :=
  (c ||| (attr <<< 8)) % 65536

/-- `vga_update_cursor`: the four `outb` writes that sync the hardware
cursor to position `pos = cursor_y * VGA_WIDTH + cursor_x`. -/
def vga_update_cursor_writes (x y : Nat) : List (Nat × Nat) :=
  let pos := y * VGA_WIDTH + x
  [(0x3D4, 0x0F), (0x3D5, pos % 256), (0x3D4, 0x0E), (0x3D5, (pos >>> 8) % 256)]

/-- Append the hardware-cursor sync writes for the current position. -/
def vga_update_cursor (s : VgaState) : VgaState :=
  { s with ports := s.ports ++ vga_update_cursor_writes s.cursor_x s.cursor_y }

/-- `vga_clear`: fill every cell with a blank in the current attribute,
cursor to (0,0), sync hardware cursor. -/
def vga_clear (s : VgaState) : VgaState :=
  let blank := vga_make_entry 32 s.current_attr
  vga_update_cursor
    { s with
      buffer := fun i => if i < VGA_WIDTH * VGA_HEIGHT then blank else s.buffer i
      cursor_x := 0
      cursor_y := 0 }

/-- `vga_set_color`. -/
def vga_set_color (fg bg : Nat) (s : VgaState) : VgaState :=
  { s with current_attr := vga_make_attr fg bg }

/-- `vga_scroll`: move rows 1..24 up one row, blank the last row with
(space, current attribute). -/
def vga_scroll (s : VgaState) : VgaState :=
  let blank := vga_make_entry 32 s.current_attr
  { s with
    buffer := fun i =>
      if i < (VGA_HEIGHT - 1) * VGA_WIDTH then s.buffer (i + VGA_WIDTH)
      else if i < VGA_HEIGHT * VGA_WIDTH then blank
      else s.buffer i }

/-- The `switch (c)` body of `vga_putchar`, before the scroll check.
`c` is the byte value of the C `char` argument; since `char` is signed,
the printability test `c >= 0x20` holds exactly for bytes in [0x20,0x7F]
(bytes 0x80..0xFF are negative as `char`). -/
def vga_putchar_case (c : Nat) (s : VgaState) : VgaState :=
  if c = 10 then
    { s with cursor_x := 0, cursor_y := s.cursor_y + 1 }
  else if c = 13 then
    { s with cursor_x := 0 }
  else if c = 9 then
    -- (cursor_x + 8) & ~7 clears the low three bits
    let x := (s.cursor_x + 8) / 8 * 8
    if VGA_WIDTH ≤ x then
      { s with cursor_x := 0, cursor_y := s.cursor_y + 1 }
    else
      { s with cursor_x := x }
  else if c = 8 then
    if 0 < s.cursor_x then
      { s with cursor_x := s.cursor_x - 1 }
    else if 0 < s.cursor_y then
      { s with cursor_x := VGA_WIDTH - 1, cursor_y := s.cursor_y - 1 }
    else s
  else if 32 ≤ c ∧ c ≤ 127 then
    let offset := s.cursor_y * VGA_WIDTH + s.cursor_x
    let s1 := { s with
      buffer := fun i => if i = offset then vga_make_entry c s.current_attr
                         else s.buffer i
      cursor_x := s.cursor_x + 1 }
    if VGA_WIDTH ≤ s1.cursor_x then
      { s1 with cursor_x := 0, cursor_y := s1.cursor_y + 1 }
    else s1
  else s

/-- Whether this `vga_putchar` call takes the scroll branch. -/
def vga_putchar_scrolls (c : Nat) (s : VgaState) : Bool :=
  VGA_HEIGHT ≤ (vga_putchar_case c s).cursor_y

/-- `vga_putchar`: the case switch, then scroll-and-pin if the row ran past
the last line, then a hardware cursor sync. -/
def vga_putchar (c : Nat) (s : VgaState) : VgaState :=
  let t := vga_putchar_case c s
  let u := if VGA_HEIGHT ≤ t.cursor_y then
             { vga_scroll t with cursor_y := VGA_HEIGHT - 1 }
           else t
  vga_update_cursor u

/-- `vga_print`: repeated `vga_putchar` over the string bytes. -/
def vga_print (l : List Nat) (s : VgaState) : VgaState :=
  l.foldl (fun s c => vga_putchar c s) s

/-- `vga_println`. -/
def vga_println (l : List Nat) (s : VgaState) : VgaState :=
  vga_putchar 10 (vga_print l s)

/-- `vga_set_cursor`: bounds-checked; out-of-range requests are a no-op. -/
def vga_set_cursor (x y : Nat) (s : VgaState) : VgaState :=
  if x < VGA_WIDTH ∧ y < VGA_HEIGHT then
    vga_update_cursor { s with cursor_x := x, cursor_y := y }
  else s

/-- `vga_cursor_enable`: two (or three) configuration writes through the
port gateway; no logical-state change. -/
def vga_cursor_enable (enable : Bool) (s : VgaState) : VgaState :=
  if enable then
    { s with ports := s.ports ++ [(0x3D4, 0x0A), (0x3D5, 0x0E), (0x3D4, 0x0B), (0x3D5, 0x0F)] }
  else
    { s with ports := s.ports ++ [(0x3D4, 0x0A), (0x3D5, 0x20)] }

/-- `vga_init`: default attribute, clear, enable hardware cursor. -/
def vga_init (s : VgaState) : VgaState :=
  vga_cursor_enable true
    (vga_clear { s with current_attr := vga_make_attr VGA_LIGHT_GRAY VGA_BLACK })

/-- The console state right after `vga_init`, starting from an arbitrary
power-on buffer (all zeros here). -/
def vgaInitState : VgaState :=
  vga_init ⟨fun _ => 0, 0, 0, 0, []⟩

/-! ## Keyboard decoder (`src/kernel/drivers/keyboard/keyboard.c`) -/

/-- `scancode_to_ascii_lower`: Scancode Set 1 to ASCII, unshifted.
Entries are byte values; 0 means no printable character. -/
def scancode_to_ascii_lower : List Nat :=
  [0, 27, 49, 50, 51, 52, 53, 54,          -- 0x00-0x07
   55, 56, 57, 48, 45, 61, 8, 9,           -- 0x08-0x0F
   113, 119, 101, 114, 116, 121, 117, 105, -- 0x10-0x17: q w e r t y u i
   111, 112, 91, 93, 10, 0, 97, 115,       -- 0x18-0x1F: o p [ ] nl _ a s
   100, 102, 103, 104, 106, 107, 108, 59,  -- 0x20-0x27: d f g h j k l ;
   39, 96, 0, 92, 122, 120, 99, 118,       -- 0x28-0x2F
   98, 110, 109, 44, 46, 47, 0, 42,        -- 0x30-0x37: b n m , . / _ *
   0, 32, 0, 0, 0, 0, 0, 0,                -- 0x38-0x3F
   0, 0, 0, 0, 0, 0, 0, 55,                -- 0x40-0x47
   56, 57, 45, 52, 53, 54, 43, 49,         -- 0x48-0x4F
   50, 51, 48, 46, 0, 0, 0, 0,             -- 0x50-0x57
   0, 0, 0, 0, 0, 0, 0, 0,                 -- 0x58-0x5F
   0, 0, 0, 0, 0, 0, 0, 0,
   0, 0, 0, 0, 0, 0, 0, 0,
   0, 0, 0, 0, 0, 0, 0, 0,
   0, 0, 0, 0, 0, 0, 0, 0]

/-- `scancode_to_ascii_upper`: Scancode Set 1 to ASCII, shifted. -/
def scancode_to_ascii_upper : List Nat :=
  [0, 27, 33, 64, 35, 36, 37, 94,          -- 0x00-0x07: _ esc ! @ # $ % ^
   38, 42, 40, 41, 95, 43, 8, 9,           -- 0x08-0x0F
   81, 87, 69, 82, 84, 89, 85, 73,         -- 0x10-0x17: Q W E R T Y U I
   79, 80, 123, 125, 10, 0, 65, 83,        -- 0x18-0x1F
   68, 70, 71, 72, 74, 75, 76, 58,         -- 0x20-0x27: D F G H J K L :
   34, 126, 0, 124, 90, 88, 67, 86,        -- 0x28-0x2F
   66, 78, 77, 60, 62, 63, 0, 42,          -- 0x30-0x37: B N M < > ? _ *
   0, 32, 0, 0, 0, 0, 0, 0,                -- 0x38-0x3F
   0, 0, 0, 0, 0, 0, 0, 55,                -- 0x40-0x47
   56, 57, 45, 52, 53, 54, 43, 49,         -- 0x48-0x4F
   50, 51, 48, 46, 0, 0, 0, 0,             -- 0x50-0x57
   0, 0, 0, 0, 0, 0, 0, 0,                 -- 0x58-0x5F
   0, 0, 0, 0, 0, 0, 0, 0,
   0, 0, 0, 0, 0, 0, 0, 0,
   0, 0, 0, 0, 0, 0, 0, 0,
   0, 0, 0, 0, 0, 0, 0, 0]

/-- Modifier key state: `shift_pressed`, `ctrl_pressed`, `alt_pressed`. -/
structure ModifierState where
  shift_pressed : Bool
  ctrl_pressed : Bool
  alt_pressed : Bool
deriving DecidableEq

/-- Key codes from `keyboard.h`: `KEY_NONE` is 0, special keys are
`KEY_SPECIAL | scancode` with `KEY_SPECIAL = 0x100`. -/
def KEY_NONE : Nat := 0
def KEY_SPECIAL : Nat := 0x100

/-- The `switch` over special (navigation / function) keys. -/
def keyboard_special_key (sc : Nat) : Option Nat :=
  if sc = 0x48 ∨ sc = 0x50 ∨ sc = 0x4B ∨ sc = 0x4D ∨
     sc = 0x47 ∨ sc = 0x4F ∨ sc = 0x49 ∨ sc = 0x51 ∨
     sc = 0x52 ∨ sc = 0x53 ∨
     (0x3B ≤ sc ∧ sc ≤ 0x44) ∨ sc = 0x57 ∨ sc = 0x58 then
    some (KEY_SPECIAL ||| sc)
  else none

/-- `keyboard_getchar_nonblock`, given the raw scancode byte that
`keyboard_read_scancode` produced (0 when no byte was pending).
Returns the decoded key value and the new modifier state. -/
def keyboard_getchar_nonblock (scancode : Nat) (st : ModifierState) :
    Nat × ModifierState :=
  if scancode = 0 then (KEY_NONE, st)
  else
    -- bit 7 set means key release; mask it off to get the base code
    let released := 0x80 ≤ scancode % 256
    let sc := scancode % 0x80
    if sc = 0x2A ∨ sc = 0x36 then
      (KEY_NONE, { st with shift_pressed := !released })
    else if sc = 0x1D then
      (KEY_NONE, { st with ctrl_pressed := !released })
    else if sc = 0x38 then
      (KEY_NONE, { st with alt_pressed := !released })
    else if released then (KEY_NONE, st)
    else
      match keyboard_special_key sc with
      | some k => (k, st)
      | none =>
        let table := if st.shift_pressed then scancode_to_ascii_upper
                     else scancode_to_ascii_lower
        let c := table.getD sc 0
        if c = 0 then (KEY_NONE, st)
        else if st.ctrl_pressed ∧ 97 ≤ c ∧ c ≤ 122 then
          (c - 97 + 1, st)  -- Ctrl+A = 1, Ctrl+B = 2, ...
        else (c, st)

/-! ## Command-line parser (`src/kernel/shell/parser/parser.c`)

C strings are modelled as lists of non-zero byte values (the bytes up to
the NUL terminator). A null pointer argument is modelled as `none`. -/

/-- `isspace` from `lib/string/string.c`. -/
def isspace (c : Nat) : Bool :=
  c = 32 || c = 9 || c = 10 || c = 13 || c = 12 || c = 11

/-- `parser_trim_trailing`: remove trailing whitespace in place (each
trailing whitespace byte is overwritten with NUL, shortening the string). -/
def parser_trim_trailing (l : List Nat) : List Nat :=
  (l.reverse.dropWhile isspace).reverse

/-- The argument-scanning loop of `parser_parse`: skip a whitespace run,
record the start of the next non-whitespace run as one argument
(terminating it in place), and repeat while bytes remain and fewer than
`SHELL_MAX_ARGS` arguments are recorded. `fuel` bounds the recursion by
the length of the buffer. -/
def parser_scan_args : Nat → List Nat → Nat → List (List Nat)
  | 0, _, _ => []
  | fuel + 1, l, argc =>
    if l = [] ∨ SHELL_MAX_ARGS ≤ argc then []
    else
      let l1 := l.dropWhile isspace
      if l1 = [] then []
      else
        let arg := l1.takeWhile (fun c => !isspace c)
        let rest := l1.dropWhile (fun c => !isspace c)
        -- the terminating whitespace byte, if any, is overwritten with NUL
        arg :: parser_scan_args fuel (rest.drop 1) (argc + 1)

/-- `parser_parse`: fails exactly when the input line or the output
structure is null; otherwise copies the line into a bounded buffer
(truncating at `SHELL_MAX_CMD_LEN - 1` bytes), trims trailing whitespace,
and splits the buffer into at most `SHELL_MAX_ARGS` arguments.
The result carries `argc` and the argument slices. -/
structure parsed_cmd_t where
  argc : Nat
  argv : List (List Nat)
deriving DecidableEq

/-- The successful body of `parser_parse` on a non-null line. -/
def parser_parse_ok (cmdline : List Nat) : parsed_cmd_t :=
  let buffer := cmdline.take (SHELL_MAX_CMD_LEN - 1)
  let trimmed := parser_trim_trailing buffer
  let args := parser_scan_args (trimmed.length + 1) trimmed 0
  ⟨args.length, args⟩

/-- `parser_parse` with null-pointer checks: `cmdline = none` models a
null input pointer, `cmd_null` models a null output pointer. -/
def parser_parse (cmdline : Option (List Nat)) (cmd_null : Bool) :
    Option parsed_cmd_t :=
  match cmdline with
  | none => none
  | some line => if cmd_null then none else some (parser_parse_ok line)

/-! ## Shell (`src/kernel/shell/shell.c`) -/

/-- Command table entry: name, help text, handler. The handler is an
opaque token (its identity is what dispatch must preserve). -/
structure shell_command_t where
  name : List Nat
  help : List Nat
  handler : Nat
deriving DecidableEq

/-- `shell_find_command`: first exact match by linear scan (strcmp). -/
def shell_find_command (commands : List shell_command_t) (name : List Nat) :
    Option shell_command_t :=
  match commands with
  | [] => none
  | c :: rest => if c.name = name then some c else shell_find_command rest name

/-- `shell_register_command`: append unless the table is full. -/
def shell_register_command (commands : List shell_command_t)
    (c : shell_command_t) : List shell_command_t :=
  if 32 ≤ commands.length then commands else commands ++ [c]

/-- Observable outcome of one `shell_execute` call. -/
inductive ExecEffect where
  | noop : ExecEffect
  | invoked : shell_command_t → Nat → List (List Nat) → ExecEffect
  | unknown : List Nat → List Nat → ExecEffect
deriving DecidableEq

/-- Byte list of an ASCII string literal. -/
def bytes (s : String) : List Nat := s.data.map Char.toNat

/-- `shell_execute`: parse the line (never fails for the non-null stack
arguments it is called with), do nothing on an empty parse, otherwise
dispatch to the first matching command or report the two diagnostic
lines for an unknown command. -/
def shell_execute (commands : List shell_command_t) (cmdline : List Nat) :
    ExecEffect :=
  let cmd := parser_parse_ok cmdline
  if cmd.argc = 0 then .noop
  else
    match shell_find_command commands (cmd.argv.headD []) with
    | some c => .invoked c cmd.argc cmd.argv
    | none =>
      .unknown (bytes "Unknown command: " ++ cmd.argv.headD [] ++ [10])
               (bytes "Type " ++ [39] ++ bytes "help" ++ [39] ++
                bytes " for available commands." ++ [10])

/-- One simulated `shell_readline` loop, processing the decoded key
values that `keyboard_getchar` would return. Returns the count and the
log of every `buffer[i] = b` store the C code performs, in order, or
`none` when the key stream runs dry while the loop would still block. -/
def shell_readline_loop (keys : List Nat) (maxlen pos : Nat)
    (writes : List (Nat × Nat)) : Option (Nat × List (Nat × Nat)) :=
  if maxlen - 1 ≤ pos then some (pos, writes ++ [(pos, 0)])
  else
    match keys with
    | [] => none
    | c :: rest =>
      if c = 10 then some (pos, writes ++ [(pos, 0)])
      else if c = 8 then
        shell_readline_loop rest maxlen (if 0 < pos then pos - 1 else pos) writes
      else if 32 ≤ c ∧ c ≤ 126 then
        shell_readline_loop rest maxlen (pos + 1) (writes ++ [(pos, c)])
      else
        shell_readline_loop rest maxlen pos writes

/-- `shell_readline` starting from an empty buffer. -/
def shell_readline (keys : List Nat) (maxlen : Nat) :
    Option (Nat × List (Nat × Nat)) :=
  shell_readline_loop keys maxlen 0 []

/-! ## Theorems: command parser -/

lemma parser_trim_trailing_all_space (l : List Nat)
    (h : ∀ c ∈ l, isspace c) : parser_trim_trailing l = [] := by
  unfold parser_trim_trailing
  rw [List.dropWhile_eq_nil_iff.mpr]
  · rfl
  · intro x hx
    exact h x (List.mem_reverse.mp hx)

/-- C6: parsing the line `"  echo   hi  "` succeeds with two arguments,
`echo` and `hi`; parsing a line made only of whitespace (including the
empty line) succeeds with zero arguments. -/
theorem parse_example_and_blank_lines :
    parser_parse (some (bytes "  echo   hi  ")) false
      = some ⟨2, [bytes "echo", bytes "hi"]⟩ ∧
    ∀ l : List Nat, (∀ c ∈ l, isspace c) →
      parser_parse (some l) false = some ⟨0, []⟩ := by
  refine ⟨by decide, ?_⟩
  intro l h
  have htake : ∀ c ∈ l.take (SHELL_MAX_CMD_LEN - 1), isspace c :=
    fun c hc => h c (List.mem_of_mem_take hc)
  simp only [parser_parse, parser_parse_ok,
    parser_trim_trailing_all_space _ htake]
  rfl

/-- C6 witness at a concrete whitespace-only line. -/
theorem parse_example_and_blank_lines_witness :
    parser_parse (some [32, 9, 32]) false = some ⟨0, []⟩ :=
  parse_example_and_blank_lines.2 [32, 9, 32] (by decide)

lemma parser_scan_args_length (fuel : Nat) :
    ∀ (l : List Nat) (argc : Nat),
      (parser_scan_args fuel l argc).length + argc ≤ SHELL_MAX_ARGS ∨
      parser_scan_args fuel l argc = [] := by
  induction fuel with
  | zero => intro l argc; right; rfl
  | succ fuel ih =>
    intro l argc
    by_cases hstop : l = [] ∨ SHELL_MAX_ARGS ≤ argc
    · right; simp only [parser_scan_args, if_pos hstop]
    · by_cases hempty : l.dropWhile isspace = []
      · right
        simp only [parser_scan_args, if_neg hstop, if_pos hempty]
      · left
        simp only [parser_scan_args, if_neg hstop, if_neg hempty,
          List.length_cons]
        push_neg at hstop
        rcases ih (((l.dropWhile isspace).dropWhile
            (fun c => !isspace c)).drop 1) (argc + 1) with h | h
        · omega
        · rw [h]
          simp only [List.length_nil]
          omega

/-- C7: `parser_parse` fails exactly when the input line or the output
structure is null; every non-null call succeeds; overlong input is
silently truncated to the buffer capacity (255 data bytes) and at most
`SHELL_MAX_ARGS` (16) arguments are recorded, with no error in either
case. -/
theorem parser_parse_failure_and_truncation :
    (∀ (cmdline : Option (List Nat)) (cmd_null : Bool),
      parser_parse cmdline cmd_null = none ↔
        (cmdline = none ∨ cmd_null = true)) ∧
    (∀ l : List Nat, (parser_parse_ok l).argc ≤ SHELL_MAX_ARGS) ∧
    (∀ l : List Nat,
      parser_parse_ok l = parser_parse_ok (l.take (SHELL_MAX_CMD_LEN - 1))) := by
  refine ⟨?_, ?_, ?_⟩
  · rintro (_ | l) (_ | _) <;> simp [parser_parse]
  · intro l
    simp only [parser_parse_ok]
    rcases parser_scan_args_length
        ((parser_trim_trailing (l.take (SHELL_MAX_CMD_LEN - 1))).length + 1)
        (parser_trim_trailing (l.take (SHELL_MAX_CMD_LEN - 1))) 0 with h | h
    · omega
    · rw [h]; simp [SHELL_MAX_ARGS]
  · intro l
    simp only [parser_parse_ok, List.take_take, Nat.min_self]

/-! ## Theorems: command dispatch -/

/-- The `echo` built-in as registered by `shell_init_commands`; the
handler token 2 stands for the opaque `cmd_echo` function pointer. -/
def echoCommand : shell_command_t :=
  ⟨bytes "echo", bytes "Print text to screen", 2⟩

/-- C1: `shell_execute` parses the line; a parse with zero arguments is a
no-op; otherwise the first registered command whose name exactly matches
argument 0 is invoked with the argument count and the argument vector
(registering `echo` and executing `echo hi there` invokes the echo
handler with count 3 and `[echo, hi, there]`); with no match, the two
diagnostic lines are emitted and the call returns normally. -/
theorem shell_execute_dispatch :
    shell_execute [echoCommand] (bytes "echo hi there")
      = .invoked echoCommand 3 [bytes "echo", bytes "hi", bytes "there"] ∧
    (∀ (commands : List shell_command_t) (line : List Nat),
      (parser_parse_ok line).argc = 0 → shell_execute commands line = .noop) ∧
    (∀ (pre post : List shell_command_t) (c : shell_command_t),
      (∀ d ∈ pre, d.name ≠ c.name) →
      shell_find_command (pre ++ c :: post) c.name = some c) ∧
    (∀ (commands : List shell_command_t) (line : List Nat)
        (c : shell_command_t),
      shell_find_command commands ((parser_parse_ok line).argv.headD [])
          = some c →
      (parser_parse_ok line).argc ≠ 0 →
      shell_execute commands line
        = .invoked c (parser_parse_ok line).argc (parser_parse_ok line).argv) ∧
    (∀ (commands : List shell_command_t) (line : List Nat),
      shell_find_command commands ((parser_parse_ok line).argv.headD [])
          = none →
      (parser_parse_ok line).argc ≠ 0 →
      shell_execute commands line
        = .unknown
            (bytes "Unknown command: "
              ++ (parser_parse_ok line).argv.headD [] ++ [10])
            (bytes "Type " ++ [39] ++ bytes "help" ++ [39]
              ++ bytes " for available commands." ++ [10])) := by
  refine ⟨by decide, ?_, ?_, ?_, ?_⟩
  · intro commands line h
    simp only [shell_execute, if_pos h]
  · intro pre post c h
    induction pre with
    | nil => simp [shell_find_command]
    | cons d rest ih =>
      have hd : d.name ≠ c.name := h d (List.mem_cons_self d rest)
      simp only [List.cons_append, shell_find_command, if_neg hd]
      exact ih fun e he => h e (List.mem_cons_of_mem d he)
  · intro commands line c hfind h
    simp only [shell_execute, if_neg h, hfind]
  · intro commands line hfind h
    simp only [shell_execute, if_neg h, hfind]

/-- C1 witness: the concrete no-op, dispatch and unknown-command runs. -/
theorem shell_execute_dispatch_witness :
    shell_execute [echoCommand] (bytes "   ") = .noop ∧
    shell_find_command [echoCommand, ⟨bytes "echo", [], 9⟩] (bytes "echo")
      = some echoCommand ∧
    shell_execute [echoCommand] (bytes "foo")
      = .unknown (bytes "Unknown command: " ++ bytes "foo" ++ [10])
          (bytes "Type " ++ [39] ++ bytes "help" ++ [39]
            ++ bytes " for available commands." ++ [10]) :=
  ⟨shell_execute_dispatch.2.1 [echoCommand] (bytes "   ") (by decide),
   shell_execute_dispatch.2.2.1 [] [⟨bytes "echo", [], 9⟩] echoCommand
     (by decide),
   shell_execute_dispatch.2.2.2.2 [echoCommand] (bytes "foo")
     (by decide) (by decide)⟩

/-! ## Theorems: keyboard decoder -/

set_option maxRecDepth 1000000

lemma kb_ctrl_fold_dec : ∀ sc < 128, ∀ alt : Bool,
    97 ≤ scancode_to_ascii_lower.getD sc 0 →
    scancode_to_ascii_lower.getD sc 0 ≤ 122 →
    (keyboard_getchar_nonblock sc ⟨false, true, alt⟩).1
      = scancode_to_ascii_lower.getD sc 0 - 97 + 1 := by decide

/-- C3: with ctrl active and shift inactive, any scancode whose
ASCII-table lookup is a lowercase letter decodes to its control code
`c - 97 + 1`; in particular scancode 0x1E decodes to 1 and scancode
0x30 decodes to 2. -/
theorem keyboard_ctrl_folds_lowercase :
    (∀ (st : ModifierState) (sc : Nat), sc < 128 →
      st.ctrl_pressed = true → st.shift_pressed = false →
      97 ≤ scancode_to_ascii_lower.getD sc 0 →
      scancode_to_ascii_lower.getD sc 0 ≤ 122 →
      (keyboard_getchar_nonblock sc st).1
        = scancode_to_ascii_lower.getD sc 0 - 97 + 1) ∧
    (keyboard_getchar_nonblock 0x1E ⟨false, true, false⟩).1 = 1 ∧
    (keyboard_getchar_nonblock 0x30 ⟨false, true, false⟩).1 = 2 := by
  refine ⟨?_, by decide, by decide⟩
  intro st sc hsc hctrl hshift h1 h2
  obtain ⟨sh, ct, al⟩ := st
  simp only at hctrl hshift
  subst hctrl hshift
  exact kb_ctrl_fold_dec sc hsc al h1 h2

/-- C3 witness: the general part applied to ctrl+`a`. -/
theorem keyboard_ctrl_folds_lowercase_witness :
    (keyboard_getchar_nonblock 0x1E ⟨false, true, true⟩).1
      = scancode_to_ascii_lower.getD 0x1E 0 - 97 + 1 :=
  keyboard_ctrl_folds_lowercase.1 ⟨false, true, true⟩ 0x1E (by decide)
    rfl rfl (by decide) (by decide)

lemma kb_ctrl_shift_dec : ∀ sc < 128, ∀ alt : Bool,
    65 ≤ scancode_to_ascii_upper.getD sc 0 →
    scancode_to_ascii_upper.getD sc 0 ≤ 90 →
    (keyboard_getchar_nonblock sc ⟨true, true, alt⟩).1
      = scancode_to_ascii_upper.getD sc 0 := by decide

/-- C9: with both ctrl and shift active, a scancode whose shifted-table
lookup is an uppercase letter decodes to that letter unchanged — the
ctrl folding applies only to lowercase letters; in particular scancode
0x1E with ctrl+shift decodes to 65, not 1. -/
theorem keyboard_ctrl_shift_keeps_uppercase :
    (∀ (st : ModifierState) (sc : Nat), sc < 128 →
      st.ctrl_pressed = true → st.shift_pressed = true →
      65 ≤ scancode_to_ascii_upper.getD sc 0 →
      scancode_to_ascii_upper.getD sc 0 ≤ 90 →
      (keyboard_getchar_nonblock sc st).1
        = scancode_to_ascii_upper.getD sc 0) ∧
    (keyboard_getchar_nonblock 0x1E ⟨true, true, false⟩).1 = 65 := by
  refine ⟨?_, by decide⟩
  intro st sc hsc hctrl hshift h1 h2
  obtain ⟨sh, ct, al⟩ := st
  simp only at hctrl hshift
  subst hctrl hshift
  exact kb_ctrl_shift_dec sc hsc al h1 h2

/-- C9 witness: ctrl+shift+`b` (scancode 0x30) yields 66. -/
theorem keyboard_ctrl_shift_keeps_uppercase_witness :
    (keyboard_getchar_nonblock 0x30 ⟨true, true, false⟩).1
      = scancode_to_ascii_upper.getD 0x30 0 :=
  keyboard_ctrl_shift_keeps_uppercase.1 ⟨true, true, false⟩ 0x30 (by decide)
    rfl rfl (by decide) (by decide)

lemma kb_mod_shift_dec : ∀ sc < 256, ∀ sh ct al : Bool,
    sc % 128 = 0x2A ∨ sc % 128 = 0x36 →
    keyboard_getchar_nonblock sc ⟨sh, ct, al⟩
      = (KEY_NONE, ⟨decide (sc < 128), ct, al⟩) := by decide

lemma kb_mod_ctrl_dec : ∀ sc < 256, ∀ sh ct al : Bool,
    sc % 128 = 0x1D →
    keyboard_getchar_nonblock sc ⟨sh, ct, al⟩
      = (KEY_NONE, ⟨sh, decide (sc < 128), al⟩) := by decide

lemma kb_mod_alt_dec : ∀ sc < 256, ∀ sh ct al : Bool,
    sc % 128 = 0x38 →
    keyboard_getchar_nonblock sc ⟨sh, ct, al⟩
      = (KEY_NONE, ⟨sh, ct, decide (sc < 128)⟩) := by decide

lemma kb_mod_frame_dec : ∀ sc < 256, ∀ sh ct al : Bool,
    ¬(sc % 128 = 0x2A ∨ sc % 128 = 0x36 ∨ sc % 128 = 0x1D ∨
      sc % 128 = 0x38) →
    (keyboard_getchar_nonblock sc ⟨sh, ct, al⟩).2 = ⟨sh, ct, al⟩ := by decide

/-- C8: a scancode whose base code (release bit masked off) is a shift,
ctrl or alt code updates exactly that modifier flag (set on make,
cleared on break), leaves the other two unchanged, and returns the
no-event sentinel; any scancode whose base code is not a modifier code
leaves all three modifier flags unchanged. -/
theorem keyboard_modifier_frame :
    (∀ (sc : Nat) (st : ModifierState), sc < 256 →
      sc % 128 = 0x2A ∨ sc % 128 = 0x36 →
      keyboard_getchar_nonblock sc st
        = (KEY_NONE, { st with shift_pressed := decide (sc < 128) })) ∧
    (∀ (sc : Nat) (st : ModifierState), sc < 256 →
      sc % 128 = 0x1D →
      keyboard_getchar_nonblock sc st
        = (KEY_NONE, { st with ctrl_pressed := decide (sc < 128) })) ∧
    (∀ (sc : Nat) (st : ModifierState), sc < 256 →
      sc % 128 = 0x38 →
      keyboard_getchar_nonblock sc st
        = (KEY_NONE, { st with alt_pressed := decide (sc < 128) })) ∧
    (∀ (sc : Nat) (st : ModifierState), sc < 256 →
      ¬(sc % 128 = 0x2A ∨ sc % 128 = 0x36 ∨ sc % 128 = 0x1D ∨
        sc % 128 = 0x38) →
      (keyboard_getchar_nonblock sc st).2 = st) := by
  refine ⟨?_, ?_, ?_, ?_⟩ <;> intro sc st h hm <;> obtain ⟨sh, ct, al⟩ := st
  · exact kb_mod_shift_dec sc h sh ct al hm
  · exact kb_mod_ctrl_dec sc h sh ct al hm
  · exact kb_mod_alt_dec sc h sh ct al hm
  · exact kb_mod_frame_dec sc h sh ct al hm

/-- C8 witness: shift make and break, and a letter scancode leaving the
modifier state untouched. -/
theorem keyboard_modifier_frame_witness :
    keyboard_getchar_nonblock 0x2A ⟨false, true, false⟩
      = (KEY_NONE, ⟨true, true, false⟩) ∧
    keyboard_getchar_nonblock 0xAA ⟨true, true, false⟩
      = (KEY_NONE, ⟨false, true, false⟩) ∧
    (keyboard_getchar_nonblock 0x1E ⟨true, false, true⟩).2
      = ⟨true, false, true⟩ :=
  ⟨keyboard_modifier_frame.1 0x2A ⟨false, true, false⟩ (by decide)
     (by decide),
   keyboard_modifier_frame.1 0xAA ⟨true, true, false⟩ (by decide)
     (by decide),
   keyboard_modifier_frame.2.2.2 0x1E ⟨true, false, true⟩ (by decide)
     (by decide)⟩

/-! ## Theorems: console surface -/

/-- The public Console Surface operations. -/
inductive ConsoleOp where
  | clear : ConsoleOp
  | set_color (fg bg : Nat) : ConsoleOp
  | put_char (c : Nat) : ConsoleOp
  | print (l : List Nat) : ConsoleOp
  | println (l : List Nat) : ConsoleOp
  | set_cursor (x y : Nat) : ConsoleOp
  | scroll : ConsoleOp
  | cursor_visibility (b : Bool) : ConsoleOp

def applyConsoleOp : ConsoleOp → VgaState → VgaState
  | .clear, s => vga_clear s
  | .set_color fg bg, s => vga_set_color fg bg s
  | .put_char c, s => vga_putchar c s
  | .print l, s => vga_print l s
  | .println l, s => vga_println l s
  | .set_cursor x y, s => vga_set_cursor x y s
  | .scroll, s => vga_scroll s
  | .cursor_visibility b, s => vga_cursor_enable b s

def runConsoleOps (ops : List ConsoleOp) (s : VgaState) : VgaState :=
  ops.foldl (fun s op => applyConsoleOp op s) s

/-- The cursor bounds invariant: column in [0,80), row in [0,25). -/
def VgaInBounds (s : VgaState) : Prop :=
  s.cursor_x < VGA_WIDTH ∧ s.cursor_y < VGA_HEIGHT

lemma vga_putchar_case_x (c : Nat) (s : VgaState) (hx : s.cursor_x < 80) :
    (vga_putchar_case c s).cursor_x < 80 := by
  unfold vga_putchar_case VGA_WIDTH
  dsimp only
  split_ifs <;> (try dsimp only) <;> omega

lemma vga_putchar_inBounds (c : Nat) (s : VgaState) (h : VgaInBounds s) :
    VgaInBounds (vga_putchar c s) := by
  have hcx := vga_putchar_case_x c s h.1
  unfold VgaInBounds vga_putchar vga_update_cursor vga_scroll
    VGA_WIDTH VGA_HEIGHT at *
  dsimp only
  split_ifs <;> (try dsimp only) <;> omega

lemma vga_print_inBounds (l : List Nat) (s : VgaState) (h : VgaInBounds s) :
    VgaInBounds (vga_print l s) := by
  induction l generalizing s with
  | nil => exact h
  | cons c rest ih => exact ih _ (vga_putchar_inBounds c s h)

lemma applyConsoleOp_inBounds (op : ConsoleOp) (s : VgaState)
    (h : VgaInBounds s) : VgaInBounds (applyConsoleOp op s) := by
  obtain ⟨hx, hy⟩ := h
  cases op with
  | clear => exact ⟨Nat.succ_pos 79, Nat.succ_pos 24⟩
  | set_color fg bg => exact ⟨hx, hy⟩
  | put_char c => exact vga_putchar_inBounds c s ⟨hx, hy⟩
  | print l => exact vga_print_inBounds l s ⟨hx, hy⟩
  | println l =>
    exact vga_putchar_inBounds 10 _ (vga_print_inBounds l s ⟨hx, hy⟩)
  | set_cursor x y =>
    show VgaInBounds (vga_set_cursor x y s)
    unfold VgaInBounds vga_set_cursor vga_update_cursor
    dsimp only
    split_ifs with hcond
    · exact ⟨hcond.1, hcond.2⟩
    · exact ⟨hx, hy⟩
  | scroll => exact ⟨hx, hy⟩
  | cursor_visibility b => cases b <;> exact ⟨hx, hy⟩

lemma vgaInitState_inBounds : VgaInBounds vgaInitState := by
  unfold VgaInBounds
  exact ⟨by decide, by decide⟩

/-- C2: starting from the initialized console state, after any finite
sequence of public console operations the cursor column is below 80 and
the cursor row below 25; moreover whenever a `put_char` would move the
row past the last line, the result is obtained by scrolling and pinning
the row to 24. -/
theorem console_cursor_always_in_bounds :
    (∀ ops : List ConsoleOp, VgaInBounds (runConsoleOps ops vgaInitState)) ∧
    (∀ (c : Nat) (s : VgaState),
      VGA_HEIGHT ≤ (vga_putchar_case c s).cursor_y →
      (vga_putchar c s).cursor_y = VGA_HEIGHT - 1 ∧
      (vga_putchar c s).buffer
        = (vga_scroll (vga_putchar_case c s)).buffer) := by
  constructor
  · intro ops
    have : ∀ (l : List ConsoleOp) (s : VgaState), VgaInBounds s →
        VgaInBounds (runConsoleOps l s) := by
      intro l
      induction l with
      | nil => intro s h; exact h
      | cons op rest ih =>
        intro s h
        exact ih _ (applyConsoleOp_inBounds op s h)
    exact this ops vgaInitState vgaInitState_inBounds
  · intro c s h
    unfold vga_putchar vga_update_cursor
    dsimp only
    rw [if_pos h]
    exact ⟨rfl, rfl⟩

/-- C2 witness: a concrete operation sequence, and a `put_char` that
runs the row past the last line and is resolved by the scroll. -/
theorem console_cursor_always_in_bounds_witness :
    VgaInBounds (runConsoleOps
      [.set_cursor 79 24, .put_char 120, .print (bytes "hi"), .put_char 10]
      vgaInitState) ∧
    ((vga_putchar 10 (vga_set_cursor 0 24 vgaInitState)).cursor_y
        = VGA_HEIGHT - 1 ∧
      (vga_putchar 10 (vga_set_cursor 0 24 vgaInitState)).buffer
        = (vga_scroll
            (vga_putchar_case 10 (vga_set_cursor 0 24 vgaInitState))).buffer) :=
  ⟨console_cursor_always_in_bounds.1
      [.set_cursor 79 24, .put_char 120, .print (bytes "hi"), .put_char 10],
   console_cursor_always_in_bounds.2 10 (vga_set_cursor 0 24 vgaInitState)
      (by decide)⟩

/-- C10: `put_char` on a byte below 0x20 that is not newline, carriage
return, tab or backspace leaves the grid, the cursor and the attribute
unchanged; its only effect is the hardware-cursor sync re-issued at the
unchanged position. -/
theorem putchar_nonprintable_control_is_noop :
    ∀ (c : Nat) (s : VgaState), c < 32 →
      c ≠ 10 → c ≠ 13 → c ≠ 9 → c ≠ 8 →
      s.cursor_y < VGA_HEIGHT →
      vga_putchar c s
        = { s with ports :=
              s.ports ++ vga_update_cursor_writes s.cursor_x s.cursor_y } := by
  intro c s h32 h10 h13 h9 h8 hy
  unfold vga_putchar vga_putchar_case vga_update_cursor VGA_HEIGHT at *
  dsimp only
  rw [if_neg h10, if_neg h13, if_neg h9, if_neg h8,
    if_neg (by omega : ¬(32 ≤ c ∧ c ≤ 127)),
    if_neg (by omega : ¬(25 ≤ s.cursor_y))]

/-- C10 witness: the bell byte 0x07 on the initialized console. -/
theorem putchar_nonprintable_control_is_noop_witness :
    vga_putchar 7 vgaInitState
      = { vgaInitState with
          ports := vgaInitState.ports
            ++ vga_update_cursor_writes vgaInitState.cursor_x vgaInitState.cursor_y } :=
  putchar_nonprintable_control_is_noop 7 vgaInitState (by decide)
    (by decide) (by decide) (by decide) (by decide) (by decide)

/-! ## Theorems: scrolling when the last row fills (C5) -/

/-- Number of scroll events over a sequence of `vga_putchar` calls. -/
def vga_print_scroll_count : List Nat → VgaState → Nat
  | [], _ => 0
  | c :: rest, s =>
    (if vga_putchar_scrolls c s then 1 else 0)
      + vga_print_scroll_count rest (vga_putchar c s)

/-- 80 copies of the printable byte `x` (0x78), filling one row. -/
def fillRow : List Nat := List.replicate 80 120

/-- Initialized console with the cursor moved to the start of the last
display row. -/
def consoleAtLastRow : VgaState := vga_set_cursor 0 24 vgaInitState

/-- The console after writing `fillRow` at the start of the last row:
the 80th character wraps the cursor and triggers the scroll. -/
def consoleFilledRow : VgaState := vga_print fillRow consoleAtLastRow

lemma vga_print_scroll_count_append (l1 l2 : List Nat) : ∀ s : VgaState,
    vga_print_scroll_count (l1 ++ l2) s
      = vga_print_scroll_count l1 s
        + vga_print_scroll_count l2 (vga_print l1 s) := by
  induction l1 with
  | nil => intro s; simp [vga_print_scroll_count, vga_print]
  | cons c rest ih =>
    intro s
    simp only [List.cons_append, vga_print_scroll_count, List.append_eq]
    have hp : vga_print (c :: rest) s = vga_print rest (vga_putchar c s) := rfl
    rw [hp, ih (vga_putchar c s)]
    omega

lemma vga_putchar_printable_interior (c : Nat) (s : VgaState)
    (h1 : 32 ≤ c) (h2 : c ≤ 127) (hx : s.cursor_x + 1 < 80)
    (hy : s.cursor_y < 25) :
    vga_putchar c s = vga_update_cursor
      { s with
        buffer := fun i => if i = s.cursor_y * 80 + s.cursor_x
                           then vga_make_entry c s.current_attr
                           else s.buffer i
        cursor_x := s.cursor_x + 1 } ∧
    vga_putchar_scrolls c s = false := by
  have h10 : c ≠ 10 := by omega
  have h13 : c ≠ 13 := by omega
  have h9 : c ≠ 9 := by omega
  have h8 : c ≠ 8 := by omega
  unfold vga_putchar vga_putchar_scrolls vga_putchar_case VGA_WIDTH VGA_HEIGHT
  dsimp only
  rw [if_neg h10, if_neg h13, if_neg h9, if_neg h8,
    if_pos (show 32 ≤ c ∧ c ≤ 127 from ⟨h1, h2⟩)]
  try dsimp only
  rw [if_neg (by omega : ¬(80 ≤ s.cursor_x + 1))]
  try dsimp only
  rw [if_neg (by omega : ¬(25 ≤ s.cursor_y))]
  exact ⟨rfl, decide_eq_false_iff_not.mpr (by omega)⟩

/-- C5 counterexample: from the cursor at the start of the last row,
write 80 printable characters (filling the last row) and then a newline.
The claim demands exactly one scroll over the whole sequence; the code
scrolls twice (once when the 80th character wraps, once for the
newline). -/
theorem fill_last_row_newline_scrolls_twice :
    vga_print_scroll_count (fillRow ++ [10]) consoleAtLastRow = 2 ∧
    ¬ vga_print_scroll_count (fillRow ++ [10]) consoleAtLastRow = 1 := by
  exact ⟨by decide, by decide⟩

/-- C5 (amended): filling the last row with 80 printable characters and
writing one further character scrolls exactly once over the whole
sequence when the further character is printable — the fill characters
end on row 23, the cursor ends at (1,24), and the trigger character sits
at column 0 of an otherwise blank bottom row; when the further character
is a newline a second scroll occurs (two in total) and the cursor ends
at (0,24), the fill characters on row 22 and rows 23 and 24 blank.
Each scroll moves every former row r ≥ 1 to row r−1 and blanks the
bottom row with (space, current attribute). -/
theorem fill_last_row_one_more_char_scrolls :
    (∀ t : Nat, 32 ≤ t → t ≤ 127 →
      vga_print_scroll_count (fillRow ++ [t]) consoleAtLastRow = 1 ∧
      (vga_print (fillRow ++ [t]) consoleAtLastRow).cursor_x = 1 ∧
      (vga_print (fillRow ++ [t]) consoleAtLastRow).cursor_y = 24 ∧
      (∀ i : Fin 80, (vga_print (fillRow ++ [t]) consoleAtLastRow).buffer
        (23 * 80 + i.val) = vga_make_entry 120 7) ∧
      (vga_print (fillRow ++ [t]) consoleAtLastRow).buffer (24 * 80)
        = vga_make_entry t 7 ∧
      (∀ i : Fin 79, (vga_print (fillRow ++ [t]) consoleAtLastRow).buffer
        (24 * 80 + 1 + i.val) = vga_make_entry 32 7)) ∧
    (vga_print_scroll_count (fillRow ++ [10]) consoleAtLastRow = 2 ∧
      (vga_print (fillRow ++ [10]) consoleAtLastRow).cursor_x = 0 ∧
      (vga_print (fillRow ++ [10]) consoleAtLastRow).cursor_y = 24 ∧
      (∀ i : Fin 80, (vga_print (fillRow ++ [10]) consoleAtLastRow).buffer
        (22 * 80 + i.val) = vga_make_entry 120 7) ∧
      (∀ i : Fin 160, (vga_print (fillRow ++ [10]) consoleAtLastRow).buffer
        (23 * 80 + i.val) = vga_make_entry 32 7)) ∧
    (∀ s : VgaState,
      (∀ i : Fin 1920, (vga_scroll s).buffer i.val = s.buffer (i.val + 80)) ∧
      (∀ i : Fin 80, (vga_scroll s).buffer (1920 + i.val)
        = vga_make_entry 32 s.current_attr)) := by
  refine ⟨?_, ⟨by decide, by decide, by decide, by decide, by decide⟩, ?_⟩
  · intro t h1 h2
    have hx : consoleFilledRow.cursor_x + 1 < 80 := by decide
    have hy : consoleFilledRow.cursor_y < 25 := by decide
    obtain ⟨heq, hsc⟩ :=
      vga_putchar_printable_interior t consoleFilledRow h1 h2 hx hy
    have hprint : vga_print (fillRow ++ [t]) consoleAtLastRow
        = vga_putchar t consoleFilledRow := by
      show vga_print (fillRow ++ [t]) consoleAtLastRow
        = vga_print [t] (vga_print fillRow consoleAtLastRow)
      rw [vga_print, List.foldl_append]
      rfl
    have hoff : consoleFilledRow.cursor_y * 80 + consoleFilledRow.cursor_x
        = 1920 := by decide
    have hattr : consoleFilledRow.current_attr = 7 := by decide
    refine ⟨?_, ?_, ?_, ?_, ?_, ?_⟩
    · rw [vga_print_scroll_count_append]
      show vga_print_scroll_count fillRow consoleAtLastRow
        + ((if vga_putchar_scrolls t consoleFilledRow then 1 else 0) + 0) = 1
      rw [hsc]
      decide
    · rw [hprint, heq]
      show consoleFilledRow.cursor_x + 1 = 1
      decide
    · rw [hprint, heq]
      show consoleFilledRow.cursor_y = 24
      decide
    · intro i
      rw [hprint, heq]
      show (if 23 * 80 + i.val = consoleFilledRow.cursor_y * 80
              + consoleFilledRow.cursor_x
            then vga_make_entry t consoleFilledRow.current_attr
            else consoleFilledRow.buffer (23 * 80 + i.val))
        = vga_make_entry 120 7
      rw [hoff, if_neg (by omega)]
      exact (by decide : ∀ j : Fin 80,
        consoleFilledRow.buffer (23 * 80 + j.val) = vga_make_entry 120 7) i
    · rw [hprint, heq]
      show (if 24 * 80 = consoleFilledRow.cursor_y * 80
              + consoleFilledRow.cursor_x
            then vga_make_entry t consoleFilledRow.current_attr
            else consoleFilledRow.buffer (24 * 80))
        = vga_make_entry t 7
      rw [hoff, if_pos rfl, hattr]
    · intro i
      rw [hprint, heq]
      show (if 24 * 80 + 1 + i.val = consoleFilledRow.cursor_y * 80
              + consoleFilledRow.cursor_x
            then vga_make_entry t consoleFilledRow.current_attr
            else consoleFilledRow.buffer (24 * 80 + 1 + i.val))
        = vga_make_entry 32 7
      rw [hoff, if_neg (by omega)]
      exact (by decide : ∀ j : Fin 79,
        consoleFilledRow.buffer (24 * 80 + 1 + j.val) = vga_make_entry 32 7) i
  · intro s
    constructor
    · intro i
      unfold vga_scroll VGA_WIDTH VGA_HEIGHT
      dsimp only
      rw [if_pos (by omega : i.val < (25 - 1) * 80)]
    · intro i
      unfold vga_scroll VGA_WIDTH VGA_HEIGHT
      dsimp only
      rw [if_neg (by omega : ¬(1920 + i.val < (25 - 1) * 80)),
        if_pos (by omega : 1920 + i.val < 25 * 80)]

/-- C5 witness: the amended printable branch at the trigger byte `y`
(0x79). -/
theorem fill_last_row_one_more_char_scrolls_witness :
    vga_print_scroll_count (fillRow ++ [121]) consoleAtLastRow = 1 ∧
    (vga_print (fillRow ++ [121]) consoleAtLastRow).cursor_x = 1 ∧
    (vga_print (fillRow ++ [121]) consoleAtLastRow).buffer (24 * 80)
      = vga_make_entry 121 7 :=
  ⟨(fill_last_row_one_more_char_scrolls.1 121 (by decide) (by decide)).1,
   (fill_last_row_one_more_char_scrolls.1 121 (by decide) (by decide)).2.1,
   (fill_last_row_one_more_char_scrolls.1 121 (by decide) (by decide)).2.2.2.2.1⟩

/-! ## Theorems: line editor bounds (C4) -/

lemma getLast?_append_single {α : Type} (l : List α) (a : α) :
    (l ++ [a]).getLast? = some a := by
  rw [List.getLast?_append_cons]
  rfl

lemma readline_terminator_case {maxlen pos count : Nat}
    {log out : List (Nat × Nat)}
    (hpos : pos ≤ maxlen - 1) (hlog : ∀ e ∈ log, e.1 < maxlen - 1)
    (h : (some (pos, log ++ [(pos, 0)]) : Option (Nat × List (Nat × Nat)))
      = some (count, out)) :
    count ≤ maxlen - 1 ∧ out.getLast? = some (count, 0) ∧
    (∀ e ∈ out, e.1 ≤ maxlen - 1 ∧ (e.2 ≠ 0 → e.1 < maxlen - 1)) := by
  simp only [Option.some.injEq, Prod.mk.injEq] at h
  obtain ⟨hc, ho⟩ := h
  subst hc
  subst ho
  refine ⟨hpos, getLast?_append_single log (pos, 0), ?_⟩
  intro e he
  rcases List.mem_append.mp he with hm | hm
  · exact ⟨Nat.le_of_lt (hlog e hm), fun _ => hlog e hm⟩
  · rw [List.mem_singleton] at hm
    subst hm
    exact ⟨hpos, fun h0 => absurd rfl h0⟩

lemma shell_readline_loop_spec : ∀ (keys : List Nat) (maxlen pos : Nat)
    (log : List (Nat × Nat)) (count : Nat) (out : List (Nat × Nat)),
    1 ≤ maxlen → pos ≤ maxlen - 1 →
    (∀ e ∈ log, e.1 < maxlen - 1) →
    shell_readline_loop keys maxlen pos log = some (count, out) →
    count ≤ maxlen - 1 ∧ out.getLast? = some (count, 0) ∧
    (∀ e ∈ out, e.1 ≤ maxlen - 1 ∧ (e.2 ≠ 0 → e.1 < maxlen - 1)) := by
  intro keys
  induction keys with
  | nil =>
    intro maxlen pos log count out h1 hpos hlog hrun
    unfold shell_readline_loop at hrun
    by_cases hstop : maxlen - 1 ≤ pos
    · rw [if_pos hstop] at hrun
      exact readline_terminator_case hpos hlog hrun
    · rw [if_neg hstop] at hrun
      simp at hrun
  | cons c rest ih =>
    intro maxlen pos log count out h1 hpos hlog hrun
    unfold shell_readline_loop at hrun
    by_cases hstop : maxlen - 1 ≤ pos
    · rw [if_pos hstop] at hrun
      exact readline_terminator_case hpos hlog hrun
    · rw [if_neg hstop] at hrun
      dsimp only at hrun
      by_cases h10 : c = 10
      · rw [if_pos h10] at hrun
        exact readline_terminator_case hpos hlog hrun
      · rw [if_neg h10] at hrun
        by_cases h8 : c = 8
        · rw [if_pos h8] at hrun
          exact ih maxlen _ log count out h1 (by split_ifs <;> omega)
            hlog hrun
        · rw [if_neg h8] at hrun
          by_cases hpr : 32 ≤ c ∧ c ≤ 126
          · rw [if_pos hpr] at hrun
            refine ih maxlen (pos + 1) (log ++ [(pos, c)]) count out h1
              (by omega) ?_ hrun
            intro e he
            rcases List.mem_append.mp he with hm | hm
            · exact hlog e hm
            · rw [List.mem_singleton] at hm
              subst hm
              show pos < maxlen - 1
              omega
          · rw [if_neg hpr] at hrun
            exact ih maxlen pos log count out h1 hpos hlog hrun

/-- C4: for `max_len ≥ 1` and any decoded key sequence on which the C
loop returns, `shell_readline` returns a count strictly below `max_len`,
its final buffer store is the null terminator at index `count`, every
buffer store lands strictly below `max_len`, and every data-byte store
(non-terminator) lands strictly below `max_len - 1` — so at most
`max_len - 1` data bytes are ever stored. -/
theorem shell_readline_never_overflows :
    ∀ (keys : List Nat) (maxlen count : Nat) (writes : List (Nat × Nat)),
      1 ≤ maxlen →
      shell_readline keys maxlen = some (count, writes) →
      count < maxlen ∧
      writes.getLast? = some (count, 0) ∧
      (∀ e ∈ writes, e.1 < maxlen) ∧
      (∀ e ∈ writes, e.2 ≠ 0 → e.1 < maxlen - 1) := by
  intro keys maxlen count writes h1 hrun
  obtain ⟨hc, hlast, hall⟩ :=
    shell_readline_loop_spec keys maxlen 0 [] count writes h1
      (by omega) (by simp) hrun
  refine ⟨by omega, hlast, ?_, fun e he h0 => (hall e he).2 h0⟩
  intro e he
  have := (hall e he).1
  omega

/-- C4 witness: typing `hi` then Enter with a 5-byte buffer. -/
theorem shell_readline_never_overflows_witness :
    2 < 5 ∧
    ([(0, 104), (1, 105), (2, 0)] : List (Nat × Nat)).getLast? = some (2, 0) ∧
    (∀ e ∈ ([(0, 104), (1, 105), (2, 0)] : List (Nat × Nat)), e.1 < 5) ∧
    (∀ e ∈ ([(0, 104), (1, 105), (2, 0)] : List (Nat × Nat)),
      e.2 ≠ 0 → e.1 < 5 - 1) :=
  shell_readline_never_overflows [104, 105, 10] 5 2
    [(0, 104), (1, 105), (2, 0)] (by decide) rfl

end Squirel
